import Mathlib

/-!
Verification of the email extraction and summarization pipeline
(src/app/main.py) against its natural-language specification.

The Python code is shallowly embedded: external collaborators (the IMAP
mailbox, the Groq chat API, the Supabase store, the wall clock) become
explicit oracle parameters, datetimes become wall-clock seconds paired
with an optional UTC offset, and fallible external calls return Except.
-/

namespace EmailApp

/-- A Python datetime: wall-clock value in seconds together with an
optional UTC offset in seconds. offset = none models a naive datetime;
offset = some o models an aware datetime whose instant is wall - o. -/
structure PyDateTime where
  wall : Int
  offset : Option Int
deriving DecidableEq, Repr

/-- Whether the datetime is timezone-aware. -/
def PyDateTime.aware (d : PyDateTime) : Bool := d.offset.isSome

/-- The absolute instant denoted by an aware datetime (UTC seconds).
Comparison of aware datetimes in Python compares these instants. -/
def PyDateTime.instant (d : PyDateTime) : Int := d.wall - (d.offset.getD 0)

/-- datetime.replace(tzinfo=utc) as executed at src/app/main.py line 131:
the wall-clock fields are kept and the offset is overwritten with 0. -/
def replaceTzinfoUTC (d : PyDateTime) : PyDateTime := { wall := d.wall, offset := some 0 }

/-- Modelled from the spec: "normalize its date to UTC" — a conversion to
UTC that denotes the same instant as the original aware datetime
(datetime.astimezone(utc)). Used only to compare the spec's stated
normalization against the code's replaceTzinfoUTC. -/
def specNormalizeToUTC (d : PyDateTime) : PyDateTime := { wall := d.instant, offset := some 0 }

/-- Calendar day of a datetime's wall clock (datetime.date() collapsed to
a day number), used for the coarse server-side search criterion. -/
def PyDateTime.dateOnly (d : PyDateTime) : Int := d.wall.fdiv 86400

/-- One message as yielded by the IMAP session (imap_tools MailMessage):
subject, from_, to_ recipient list (to is a keyword), parsed Date header (none when the header is
missing or unparsable, in which case touching .replace raises), plain
text body and HTML body (empty string when absent). -/
structure Msg where
  subject : String
  from_ : String
  to_ : List String
  date : Option PyDateTime
  text : String
  html : String
deriving DecidableEq, Repr

/-- The fields of the email_content dict built at src/app/main.py lines
136-143, before the summary key is added. -/
structure EmailContent where
  subject : String
  from_address : String
  to_address : String
  date : PyDateTime
  text : String
  extracted_at : Int
deriving DecidableEq, Repr

/-- The full stored record: email_content plus its summary. -/
structure EmailRecord extends EmailContent where
  summary : String
deriving DecidableEq, Repr

/-- Rendering of a datetime for the prompt (isoformat stand-in). -/
def isoformat (d : PyDateTime) : String :=
  toString d.wall ++ "|" ++ toString (d.offset.getD 0)

/-- The email_text prompt assembled by summarize_single_email
(src/app/main.py lines 74-79): subject, from, date and the first 2000
characters of the body, with a literal ellipsis appended. -/
def emailText (c : EmailContent) : String :=
  "Subject: " ++ c.subject ++ "\n" ++
  "From: " ++ c.from_address ++ "\n" ++
  "Date: " ++ isoformat c.date ++ "\n" ++
  "Content: " ++ (c.text.take 2000) ++ "..."

/-- summarize_single_email (src/app/main.py lines 71-101). The Groq chat
call is the oracle api: prompt to either the completion text or an
error. Any failure is caught and replaced by the literal sentinel. -/
def summarize_single_email (api : String → Except String String)
    (c : EmailContent) : String :=
  match api (emailText c) with
  | Except.ok s => s
  | Except.error _ => "Failed to generate summary"

/-- The body of the per-message try block (src/app/main.py lines 129-151).
clock gives the successive datetime.now(utc) results, k is the index of
the next now() call. A message with no parsable date raises inside the
try (msg.date.replace on None) and is skipped; a message older than
date_since is filtered out; otherwise a record is built, summarized and
kept, consuming one now() call for extracted_at. -/
def buildContent (clock : Nat → Int) (k : Nat) (msg : Msg) (d : PyDateTime) :
    EmailContent :=
  { subject := msg.subject
    from_address := msg.from_
    to_address := String.intercalate ", " msg.to_
    date := replaceTzinfoUTC d
    text := if msg.text = "" then msg.html else msg.text
    extracted_at := clock k }

def processMsg (clock : Nat → Int) (api : String → Except String String)
    (date_since : PyDateTime) (k : Nat) (msg : Msg) :
    Option EmailRecord × Nat :=
  match msg.date with
  | none => (none, k)
  | some d =>
    if date_since.instant ≤ (replaceTzinfoUTC d).instant then
      (some { buildContent clock k msg d with
              summary := summarize_single_email api (buildContent clock k msg d) },
        k + 1)
    else
      (none, k)

/-- The inner message loop (src/app/main.py lines 128-154), threading the
now()-call counter and collecting kept records in order. -/
def processMsgs (clock : Nat → Int) (api : String → Except String String)
    (date_since : PyDateTime) : List Msg → Nat → List EmailRecord × Nat
  | [], k => ([], k)
  | m :: rest, k =>
    match processMsg clock api date_since k m with
    | (some r, k2) =>
      let p := processMsgs clock api date_since rest k2
      (r :: p.1, p.2)
    | (none, k2) => processMsgs clock api date_since rest k2

/-- The sender loop (src/app/main.py lines 118-154). mailbox is the IMAP
fetch oracle: sender and date_gte day to the messages returned by the
server-side search. -/
def processSenders (clock : Nat → Int) (api : String → Except String String)
    (mailbox : String → Int → List Msg) (date_since : PyDateTime) :
    List String → Nat → List EmailRecord × Nat
  | [], k => ([], k)
  | s :: rest, k =>
    let msgs := mailbox s date_since.dateOnly
    let p := processMsgs clock api date_since msgs k
    let q := processSenders clock api mailbox date_since rest p.2
    (p.1 ++ q.1, q.2)

/-- extract_emails_from_inbox (src/app/main.py lines 103-157) after a
successful login: date_since is computed once from the first now() call,
then every sender is searched and every message filtered against it. -/
def extract_emails_from_inbox (clock : Nat → Int)
    (api : String → Except String String)
    (mailbox : String → Int → List Msg) (senders : List String) :
    List EmailRecord :=
  let date_since : PyDateTime := { wall := clock 0 - 86400, offset := some 0 }
  (processSenders clock api mailbox date_since senders 1).1

/-- The POST /extract request body (src/app/main.py lines 66-69). -/
structure EmailRequest where
  email_address : String
  password : String
  sender_addresses : List String
deriving DecidableEq, Repr

/-- The environment a request runs against: the successive
datetime.now(utc) results, the Groq chat oracle, the outcome of the IMAP
login for this run (the server's behaviour, an error or a fetch oracle),
and the per-record outcome of a Supabase insert. -/
structure Env where
  clock : Nat → Int
  api : String → Except String String
  login : Except String (String → Int → List Msg)
  insertRes : EmailRecord → Except String Unit

/-- The JSON shapes POST /extract can return; distinct constructors keep
the key sets distinct (noEmails carries no emails_found key, fetchError
is the HTTP 500 detail of src/app/main.py lines 162-169). -/
inductive ExtractResponse where
  | fetchError (message error email : String)
  | noEmails (message : String) (senders_processed : List String)
  | stored (message : String) (emails_found emails_stored : Nat)
      (senders_processed : List String)
deriving DecidableEq, Repr

/-- Whether an external call succeeded. -/
def exceptOk {ε α : Type} : Except ε α → Bool
  | Except.ok _ => true
  | Except.error _ => false

/-- The store loop of src/app/main.py lines 192-200: every record's
insert is attempted in order, failures are skipped, stored_count counts
the successes. Returns the count and the list of attempted inserts. -/
def storeLoop (insertRes : EmailRecord → Except String Unit) :
    List EmailRecord → Nat × List EmailRecord
  | [] => (0, [])
  | r :: rest =>
    let p := storeLoop insertRes rest
    match insertRes r with
    | Except.ok _ => (p.1 + 1, r :: p.2)
    | Except.error _ => (p.1, r :: p.2)

/-- extract_from_email (src/app/main.py lines 171-213): run the
extraction, return the no-emails shape when nothing was extracted,
otherwise attempt each insert and report the counts. The second
component is the trace of attempted inserts. -/
def extract_from_email (env : Env) (req : EmailRequest) :
    ExtractResponse × List EmailRecord :=
  match env.login with
  | Except.error e =>
    (ExtractResponse.fetchError "Failed to fetch emails" e req.email_address, [])
  | Except.ok mailbox =>
    let extracted :=
      extract_emails_from_inbox env.clock env.api mailbox req.sender_addresses
    if extracted.isEmpty then
      (ExtractResponse.noEmails
        "No emails found in the last 24 hours from specified senders"
        req.sender_addresses, [])
    else
      let p := storeLoop env.insertRes extracted
      (ExtractResponse.stored "Emails extracted and stored successfully"
        extracted.length p.1 req.sender_addresses, p.2)

/-- The JSON shapes GET /emails can return: the empty-store message
(no emails key) or the listing with its total_count. -/
inductive EmailsResponse where
  | empty (message : String)
  | listing (emails : List EmailRecord) (total_count : Nat)
deriving DecidableEq, Repr

/-- Date-descending order on records: a precedes b when a's date is at
or after b's. -/
def recDateGe (a b : EmailRecord) : Prop := b.date.instant ≤ a.date.instant

instance : DecidableRel recDateGe := fun a b =>
  inferInstanceAs (Decidable (b.date.instant ≤ a.date.instant))

instance : IsTotal EmailRecord recDateGe :=
  ⟨fun a b => (le_total b.date.instant a.date.instant).imp id id⟩

instance : IsTrans EmailRecord recDateGe :=
  ⟨fun _ _ _ h1 h2 => le_trans h2 h1⟩

/-- get_emails (src/app/main.py lines 215-230). The Supabase select
ordered by date descending is modelled, per the store collaborator's
contract in the spec, as a stable sort of the stored rows by date
descending; the endpoint then branches on emptiness. -/
def get_emails (store : List EmailRecord) : EmailsResponse :=
  let emails := List.insertionSort recDateGe store
  if emails.isEmpty then EmailsResponse.empty "No emails found in database"
  else EmailsResponse.listing emails emails.length

/-- The log lines emitted by one summarize_single_email call at INFO
level and above (src/app/main.py lines 81 and 100). -/
def summarizeLogs (api : String → Except String String) (c : EmailContent) :
    List String :=
  ("Generating summary for email: " ++ c.subject.take 30 ++ "...") ::
  (match api (emailText c) with
   | Except.ok _ => []
   | Except.error e => ["Failed to generate summary for email: " ++ e])

/-- The log lines of one iteration of the per-message try block
(src/app/main.py lines 128-154); logger.debug lines are below the
configured INFO level and are not emitted. Mirrors processMsg. -/
def msgLogsStep (clock : Nat → Int) (api : String → Except String String)
    (date_since : PyDateTime) (k : Nat) (msg : Msg) : List String × Nat :=
  match msg.date with
  | none =>
    (["Error processing individual email: " ++
      "NoneType object has no attribute replace"], k)
  | some d =>
    if date_since.instant ≤ (replaceTzinfoUTC d).instant then
      (summarizeLogs api (buildContent clock k msg d) ++
        ["Processed email: " ++ msg.subject.take 30 ++ "..."], k + 1)
    else
      ([], k)

/-- Log lines of the message loop, mirroring processMsgs. -/
def msgsLogs (clock : Nat → Int) (api : String → Except String String)
    (date_since : PyDateTime) : List Msg → Nat → List String × Nat
  | [], k => ([], k)
  | m :: rest, k =>
    let p := msgLogsStep clock api date_since k m
    let q := msgsLogs clock api date_since rest p.2
    (p.1 ++ q.1, q.2)

/-- Log lines of the sender loop, mirroring processSenders. -/
def sendersLogs (clock : Nat → Int) (api : String → Except String String)
    (mailbox : String → Int → List Msg) (date_since : PyDateTime) :
    List String → Nat → List String × Nat
  | [], k => ([], k)
  | s :: rest, k =>
    let msgs := mailbox s date_since.dateOnly
    let p := msgsLogs clock api date_since msgs k
    let q := sendersLogs clock api mailbox date_since rest p.2
    (("Fetching emails from sender: " ++ s) :: p.1 ++ q.1, q.2)

/-- Log lines of extract_emails_from_inbox (src/app/main.py lines
103-169), for a run whose login outcome is given. -/
def extractLogs (clock : Nat → Int) (api : String → Except String String)
    (login : Except String (String → Int → List Msg))
    (email : String) (senders : List String) : List String :=
  ("Attempting to connect to Gmail IMAP for: " ++ email) ::
  match login with
  | Except.error e => ["Failed to fetch emails: " ++ e]
  | Except.ok mailbox =>
    let date_since : PyDateTime := { wall := clock 0 - 86400, offset := some 0 }
    "Successfully connected to Gmail" ::
    (sendersLogs clock api mailbox date_since senders 1).1 ++
    ["Successfully extracted " ++
      toString (extract_emails_from_inbox clock api mailbox senders).length ++
      " emails"]

/-- Log lines of the store loop (src/app/main.py lines 193-200). -/
def storeLogs (insertRes : EmailRecord → Except String Unit) :
    List EmailRecord → List String
  | [] => []
  | r :: rest =>
    (match insertRes r with
     | Except.ok _ => "Stored email: " ++ r.subject.take 30 ++ "..."
     | Except.error e => "Failed to store email: " ++ e) ::
    storeLogs insertRes rest

/-- All log lines emitted while serving one POST /extract request
(src/app/main.py lines 171-213 plus the functions it calls). -/
def extract_from_email_logs (env : Env) (req : EmailRequest) : List String :=
  ("Starting email extraction for: " ++ req.email_address) ::
  extractLogs env.clock env.api env.login req.email_address req.sender_addresses ++
  match env.login with
  | Except.error e => ["Error in extract_from_email: " ++ e]
  | Except.ok mailbox =>
    let extracted :=
      extract_emails_from_inbox env.clock env.api mailbox req.sender_addresses
    if extracted.isEmpty then
      ["No emails found in the last 24 hours from specified senders"]
    else
      "Storing emails in Supabase" :: storeLogs env.insertRes extracted

/-! Concrete sample inputs used by witness theorems. -/

def clock0 : Nat → Int := fun _ => 1000000

def apiOk : String → Except String String := fun _ => Except.ok "summary text"

def apiErr : String → Except String String := fun _ => Except.error "boom"

def msgA : Msg :=
  { subject := "Alpha", from_ := "a@x.com", to_ := ["me@y.com"]
    date := some ⟨999000, some 0⟩, text := "hello", html := "<p>hello</p>" }

def msgOld : Msg :=
  { subject := "Old", from_ := "a@x.com", to_ := ["me@y.com"]
    date := some ⟨100, some 0⟩, text := "old", html := "" }

def msgBad : Msg :=
  { subject := "Bad", from_ := "a@x.com", to_ := ["me@y.com"]
    date := none, text := "x", html := "" }

def mbA : String → Int → List Msg := fun _ _ => [msgA]

def dsA : PyDateTime := ⟨913600, some 0⟩

def recA : EmailRecord :=
  { subject := "Alpha", from_address := "a@x.com", to_address := "me@y.com"
    date := ⟨999000, some 0⟩, text := "hello", extracted_at := 1000000
    summary := "summary text" }

/-! Helper lemmas. -/

theorem processMsg_eq_none (clock : Nat → Int) (api : String → Except String String)
    (ds : PyDateTime) (k : Nat) (msg : Msg) (h : msg.date = none) :
    processMsg clock api ds k msg = (none, k) := by
  unfold processMsg
  rw [h]

theorem processMsg_eq_skip (clock : Nat → Int) (api : String → Except String String)
    (ds : PyDateTime) (k : Nat) (msg : Msg) (d : PyDateTime)
    (h : msg.date = some d) (hlt : (replaceTzinfoUTC d).instant < ds.instant) :
    processMsg clock api ds k msg = (none, k) := by
  unfold processMsg
  rw [h]
  simp [not_le.mpr hlt]

theorem processMsg_eq_keep (clock : Nat → Int) (api : String → Except String String)
    (ds : PyDateTime) (k : Nat) (msg : Msg) (d : PyDateTime)
    (h : msg.date = some d) (hle : ds.instant ≤ (replaceTzinfoUTC d).instant) :
    processMsg clock api ds k msg =
      (some { buildContent clock k msg d with
              summary := summarize_single_email api (buildContent clock k msg d) },
        k + 1) := by
  unfold processMsg
  rw [h]
  simp [hle]

theorem processMsgs_cons (clock : Nat → Int) (api : String → Except String String)
    (ds : PyDateTime) (m : Msg) (rest : List Msg) (k : Nat) :
    processMsgs clock api ds (m :: rest) k =
      match processMsg clock api ds k m with
      | (some r, k2) =>
        ((r :: (processMsgs clock api ds rest k2).1),
          (processMsgs clock api ds rest k2).2)
      | (none, k2) => processMsgs clock api ds rest k2 := by
  conv_lhs => unfold processMsgs

theorem processSenders_cons (clock : Nat → Int) (api : String → Except String String)
    (mailbox : String → Int → List Msg) (ds : PyDateTime) (s : String)
    (rest : List String) (k : Nat) :
    processSenders clock api mailbox ds (s :: rest) k =
      ((processMsgs clock api ds (mailbox s ds.dateOnly) k).1 ++
        (processSenders clock api mailbox ds rest
          (processMsgs clock api ds (mailbox s ds.dateOnly) k).2).1,
       (processSenders clock api mailbox ds rest
          (processMsgs clock api ds (mailbox s ds.dateOnly) k).2).2) := by
  conv_lhs => unfold processSenders

theorem processMsgs_date_ge (clock : Nat → Int) (api : String → Except String String)
    (ds : PyDateTime) : ∀ (msgs : List Msg) (k : Nat) (r : EmailRecord),
    r ∈ (processMsgs clock api ds msgs k).1 → ds.instant ≤ r.date.instant := by
  intro msgs
  induction msgs with
  | nil => intro k r h; simp [processMsgs] at h
  | cons m rest ih =>
    intro k r h
    rw [processMsgs_cons] at h
    cases hd : m.date with
    | none =>
      rw [processMsg_eq_none clock api ds k m hd] at h
      exact ih _ r h
    | some d =>
      by_cases hle : ds.instant ≤ (replaceTzinfoUTC d).instant
      · rw [processMsg_eq_keep clock api ds k m d hd hle] at h
        simp at h
        rcases h with h | h
        · rw [h]
          simpa [buildContent, replaceTzinfoUTC, PyDateTime.instant] using hle
        · exact ih _ r h
      · rw [processMsg_eq_skip clock api ds k m d hd (not_le.mp hle)] at h
        exact ih _ r h

theorem processSenders_date_ge (clock : Nat → Int) (api : String → Except String String)
    (mailbox : String → Int → List Msg) (ds : PyDateTime) :
    ∀ (senders : List String) (k : Nat) (r : EmailRecord),
    r ∈ (processSenders clock api mailbox ds senders k).1 → ds.instant ≤ r.date.instant := by
  intro senders
  induction senders with
  | nil => intro k r h; simp [processSenders] at h
  | cons s rest ih =>
    intro k r h
    unfold processSenders at h
    simp at h
    rcases h with h | h
    · exact processMsgs_date_ge clock api ds _ _ r h
    · exact ih _ r h

/-- C1: every record returned by extract_emails_from_inbox has a date at
or after the cutoff now_utc - 24h computed by that invocation, and a
message whose normalized timestamp is earlier than the cutoff is
silently skipped, producing no record. -/
theorem c1_records_within_cutoff :
    (∀ (clock : Nat → Int) (api : String → Except String String)
       (mailbox : String → Int → List Msg) (senders : List String)
       (r : EmailRecord),
       r ∈ extract_emails_from_inbox clock api mailbox senders →
       clock 0 - 86400 ≤ r.date.instant) ∧
    (∀ (clock : Nat → Int) (api : String → Except String String)
       (ds : PyDateTime) (m : Msg) (d : PyDateTime) (msgs : List Msg) (k : Nat),
       m.date = some d → (replaceTzinfoUTC d).instant < ds.instant →
       processMsgs clock api ds (m :: msgs) k = processMsgs clock api ds msgs k) := by
  constructor
  · intro clock api mailbox senders r h
    have := processSenders_date_ge clock api mailbox
      ⟨clock 0 - 86400, some 0⟩ senders 1 r h
    simpa [PyDateTime.instant] using this
  · intro clock api ds m d msgs k hd hlt
    rw [processMsgs_cons, processMsg_eq_skip clock api ds k m d hd hlt]

/-- Witness for C1 at concrete inputs: one fresh message is returned and
satisfies the cutoff bound; prepending a too-old message changes nothing. -/
theorem c1_records_within_cutoff_witness :
    ((recA ∈ extract_emails_from_inbox clock0 apiOk mbA ["a@x.com"]) ∧
      clock0 0 - 86400 ≤ recA.date.instant) ∧
    (msgOld.date = some ⟨100, some 0⟩ ∧
      processMsgs clock0 apiOk dsA [msgOld, msgA] 1 =
        processMsgs clock0 apiOk dsA [msgA] 1) :=
  ⟨⟨by decide, c1_records_within_cutoff.1 clock0 apiOk mbA ["a@x.com"] recA (by decide)⟩,
   ⟨rfl, c1_records_within_cutoff.2 clock0 apiOk dsA msgOld ⟨100, some 0⟩ [msgA] 1 rfl
      (by decide)⟩⟩

def msgTz : Msg :=
  { subject := "Tz", from_ := "a@x.com", to_ := ["me@y.com"]
    date := some ⟨999000, some 3600⟩, text := "body", html := "" }

/-- C2: the code stamps the message's wall-clock time as UTC instead of
converting the instant. At a message dated with a +01:00 offset
(wall 999000, offset 3600, instant 995400) the produced record's date is
wall 999000 tagged UTC: timezone-aware, but denoting a different instant
than the original, while the spec's normalization (specNormalizeToUTC)
preserves the instant. The code's own comment says "Convert message date
to UTC", so replace(tzinfo=utc) at src/app/main.py line 131 is a slip. -/
theorem c2_replace_is_not_conversion :
    (extract_emails_from_inbox clock0 apiOk (fun _ _ => [msgTz]) ["a@x.com"]).map
        (fun r => r.date) = [⟨999000, some 0⟩] ∧
    PyDateTime.aware ⟨999000, some 0⟩ = true ∧
    PyDateTime.instant ⟨999000, some 0⟩ ≠ PyDateTime.instant ⟨999000, some 3600⟩ ∧
    (specNormalizeToUTC ⟨999000, some 3600⟩).instant =
      PyDateTime.instant ⟨999000, some 3600⟩ := by
  refine ⟨by decide, by decide, by decide, by decide⟩

/-- C3: a produced record's text field is the message's plain-text body
when that body is non-empty, and the HTML body otherwise. -/
theorem c3_text_plain_or_html :
    ∀ (clock : Nat → Int) (api : String → Except String String)
      (ds : PyDateTime) (k : Nat) (msg : Msg) (r : EmailRecord) (k2 : Nat),
      processMsg clock api ds k msg = (some r, k2) →
      (msg.text ≠ "" → r.text = msg.text) ∧
      (msg.text = "" → r.text = msg.html) := by
  intro clock api ds k msg r k2 hpm
  cases hd : msg.date with
  | none =>
    rw [processMsg_eq_none clock api ds k msg hd] at hpm
    simp at hpm
  | some d =>
    by_cases hle : ds.instant ≤ (replaceTzinfoUTC d).instant
    · rw [processMsg_eq_keep clock api ds k msg d hd hle] at hpm
      simp at hpm
      obtain ⟨h1, _⟩ := hpm
      constructor
      · intro ht
        rw [← h1]
        simp [buildContent, ht]
      · intro ht
        rw [← h1]
        simp [buildContent, ht]
    · rw [processMsg_eq_skip clock api ds k msg d hd (not_le.mp hle)] at hpm
      simp at hpm

/-- Witness for C3: a message with non-empty plain text keeps it, one
with empty plain text falls back to its HTML body. -/
theorem c3_text_plain_or_html_witness :
    (processMsg clock0 apiOk dsA 1 msgA = (some recA, 2)) ∧
    msgA.text ≠ "" ∧ recA.text = msgA.text :=
  ⟨by decide, by decide,
    (c3_text_plain_or_html clock0 apiOk dsA 1 msgA recA 2 (by decide)).1 (by decide)⟩

theorem processMsgs_api_content (clock : Nat → Int)
    (api api2 : String → Except String String) (ds : PyDateTime) :
    ∀ (msgs : List Msg) (k : Nat),
      ((processMsgs clock api ds msgs k).1.map EmailRecord.toEmailContent =
        (processMsgs clock api2 ds msgs k).1.map EmailRecord.toEmailContent) ∧
      (processMsgs clock api ds msgs k).2 = (processMsgs clock api2 ds msgs k).2 := by
  intro msgs
  induction msgs with
  | nil => intro k; exact ⟨rfl, rfl⟩
  | cons m rest ih =>
    intro k
    rw [processMsgs_cons, processMsgs_cons]
    cases hd : m.date with
    | none =>
      rw [processMsg_eq_none clock api ds k m hd,
        processMsg_eq_none clock api2 ds k m hd]
      exact ih k
    | some d =>
      by_cases hle : ds.instant ≤ (replaceTzinfoUTC d).instant
      · rw [processMsg_eq_keep clock api ds k m d hd hle,
          processMsg_eq_keep clock api2 ds k m d hd hle]
        refine ⟨?_, (ih (k + 1)).2⟩
        simp only [List.map_cons]
        exact congrArg (List.cons (buildContent clock k m d)) (ih (k + 1)).1
      · rw [processMsg_eq_skip clock api ds k m d hd (not_le.mp hle),
          processMsg_eq_skip clock api2 ds k m d hd (not_le.mp hle)]
        exact ih k

/-- C4: summarize_single_email is total: when the chat call fails it
returns exactly the literal sentinel; the value it returns is stored
verbatim as the record's summary; and the chat oracle's outcomes never
change which messages are processed (the records' non-summary content is
the same under any two oracles). -/
theorem c4_summarize_never_fails :
    ∀ (api api2 : String → Except String String) (c : EmailContent) (e : String)
      (clock : Nat → Int) (ds : PyDateTime) (msgs : List Msg) (k : Nat),
      api (emailText c) = Except.error e →
      summarize_single_email api c = "Failed to generate summary" ∧
      (∀ (k0 : Nat) (msg : Msg) (r : EmailRecord) (k2 : Nat),
        processMsg clock api ds k0 msg = (some r, k2) →
        r.summary = summarize_single_email api r.toEmailContent) ∧
      (processMsgs clock api ds msgs k).1.map EmailRecord.toEmailContent =
        (processMsgs clock api2 ds msgs k).1.map EmailRecord.toEmailContent := by
  intro api api2 c e clock ds msgs k herr
  refine ⟨?_, ?_, (processMsgs_api_content clock api api2 ds msgs k).1⟩
  · unfold summarize_single_email
    rw [herr]
  · intro k0 msg r k2 hpm
    cases hd : msg.date with
    | none =>
      rw [processMsg_eq_none clock api ds k0 msg hd] at hpm
      simp at hpm
    | some d =>
      by_cases hle : ds.instant ≤ (replaceTzinfoUTC d).instant
      · rw [processMsg_eq_keep clock api ds k0 msg d hd hle] at hpm
        simp at hpm
        obtain ⟨h1, _⟩ := hpm
        rw [← h1]
      · rw [processMsg_eq_skip clock api ds k0 msg d hd (not_le.mp hle)] at hpm
        simp at hpm

/-- Witness for C4: with an always-failing chat oracle the sentinel comes
back, and processing one message yields the same content as with a
working oracle. -/
theorem c4_summarize_never_fails_witness :
    (apiErr (emailText recA.toEmailContent) = Except.error "boom") ∧
    summarize_single_email apiErr recA.toEmailContent = "Failed to generate summary" ∧
    (processMsgs clock0 apiErr dsA [msgA] 1).1.map EmailRecord.toEmailContent =
      (processMsgs clock0 apiOk dsA [msgA] 1).1.map EmailRecord.toEmailContent :=
  ⟨rfl,
    (c4_summarize_never_fails apiErr apiOk recA.toEmailContent "boom" clock0 dsA [msgA] 1
      rfl).1,
    (c4_summarize_never_fails apiErr apiOk recA.toEmailContent "boom" clock0 dsA [msgA] 1
      rfl).2.2⟩

theorem processMsgs_drop_dateless (clock : Nat → Int)
    (api : String → Except String String) (ds : PyDateTime) (m : Msg)
    (hm : m.date = none) :
    ∀ (msgs1 : List Msg) (msgs2 : List Msg) (k : Nat),
      processMsgs clock api ds (msgs1 ++ m :: msgs2) k =
        processMsgs clock api ds (msgs1 ++ msgs2) k := by
  intro msgs1
  induction msgs1 with
  | nil =>
    intro msgs2 k
    simp only [List.nil_append]
    rw [processMsgs_cons, processMsg_eq_none clock api ds k m hm]
  | cons a rest ih =>
    intro msgs2 k
    simp only [List.cons_append]
    rw [processMsgs_cons, processMsgs_cons]
    rcases hpm : processMsg clock api ds k a with ⟨o, k2⟩
    cases o with
    | none => simp only [ih]
    | some r => simp only [ih]

/-- C5: a message whose processing fails inside the per-message try block
(here: a missing/unparsable date, so msg.date.replace raises) is skipped
and the whole extraction produces exactly the records it would produce
with that message absent from every fetch result it occurred in — later
messages of that sender and later senders are unaffected. -/
theorem c5_per_message_failure_isolated :
    ∀ (clock : Nat → Int) (api : String → Except String String)
      (mb mb2 : String → Int → List Msg) (senders : List String)
      (m : Msg) (msgs1 msgs2 : List Msg),
      m.date = none →
      (∀ (s : String) (day : Int),
        mb2 s day = mb s day ∨
          (mb s day = msgs1 ++ m :: msgs2 ∧ mb2 s day = msgs1 ++ msgs2)) →
      extract_emails_from_inbox clock api mb senders =
        extract_emails_from_inbox clock api mb2 senders := by
  intro clock api mb mb2 senders m msgs1 msgs2 hm hmb
  unfold extract_emails_from_inbox
  suffices h : ∀ (ss : List String) (k : Nat),
      processSenders clock api mb ⟨clock 0 - 86400, some 0⟩ ss k =
        processSenders clock api mb2 ⟨clock 0 - 86400, some 0⟩ ss k by
    exact congrArg Prod.fst (h senders 1)
  intro ss
  induction ss with
  | nil => intro k; rfl
  | cons s rest ih =>
    intro k
    rw [processSenders_cons, processSenders_cons]
    have hmsgs : processMsgs clock api ⟨clock 0 - 86400, some 0⟩
        (mb s (PyDateTime.dateOnly ⟨clock 0 - 86400, some 0⟩)) k =
        processMsgs clock api ⟨clock 0 - 86400, some 0⟩
          (mb2 s (PyDateTime.dateOnly ⟨clock 0 - 86400, some 0⟩)) k := by
      rcases hmb s (PyDateTime.dateOnly ⟨clock 0 - 86400, some 0⟩) with h | ⟨h1, h2⟩
      · rw [h]
      · rw [h1, h2, processMsgs_drop_dateless clock api _ m hm msgs1 msgs2 k]
    rw [hmsgs, ih]

def mbAB : String → Int → List Msg := fun _ _ => [msgA, msgBad]

/-- Witness for C5: with one dateless (failing) message after a good one,
extraction equals extraction over the mailbox without the bad message. -/
theorem c5_per_message_failure_isolated_witness :
    msgBad.date = none ∧
    extract_emails_from_inbox clock0 apiOk mbAB ["a@x.com"] =
      extract_emails_from_inbox clock0 apiOk mbA ["a@x.com"] :=
  ⟨rfl,
    c5_per_message_failure_isolated clock0 apiOk mbAB mbA ["a@x.com"] msgBad [msgA] []
      rfl (fun _ _ => Or.inr ⟨rfl, rfl⟩)⟩

theorem storeLoop_spec (ins : EmailRecord → Except String Unit) :
    ∀ records : List EmailRecord,
      storeLoop ins records =
        (records.countP (fun r => exceptOk (ins r)), records) := by
  intro records
  induction records with
  | nil => rfl
  | cons r rest ih =>
    conv_lhs => unfold storeLoop
    rw [ih]
    cases hins : ins r with
    | ok u => simp [List.countP_cons, exceptOk, hins, Nat.add_comm]
    | error e => simp [List.countP_cons, exceptOk, hins]

/-- C6: when extraction yielded a non-empty record list, every record's
insert is attempted (one failure does not stop the next), the success
response reports emails_found as the number extracted and emails_stored
as the number of inserts that succeeded, and emails_stored is at most
emails_found. -/
theorem c6_store_failures_isolated :
    ∀ (env : Env) (req : EmailRequest) (mb : String → Int → List Msg)
      (recs : List EmailRecord),
      env.login = Except.ok mb →
      extract_emails_from_inbox env.clock env.api mb req.sender_addresses = recs →
      recs ≠ [] →
      extract_from_email env req =
        (ExtractResponse.stored "Emails extracted and stored successfully"
          recs.length (recs.countP fun r => exceptOk (env.insertRes r))
          req.sender_addresses, recs) ∧
      (recs.countP fun r => exceptOk (env.insertRes r)) ≤ recs.length := by
  intro env req mb recs hlogin hx hne
  refine ⟨?_, List.countP_le_length _⟩
  unfold extract_from_email
  rw [hlogin]
  simp only [hx]
  rw [if_neg (by simp [List.isEmpty_iff, hne])]
  rw [storeLoop_spec]

def msgB : Msg :=
  { subject := "Beta", from_ := "a@x.com", to_ := ["me@y.com"]
    date := some ⟨998000, some 0⟩, text := "", html := "<b>hi</b>" }

def recB : EmailRecord :=
  { subject := "Beta", from_address := "a@x.com", to_address := "me@y.com"
    date := ⟨998000, some 0⟩, text := "<b>hi</b>", extracted_at := 1000000
    summary := "summary text" }

def mbAB2 : String → Int → List Msg := fun _ _ => [msgA, msgB]

def env0 : Env :=
  { clock := clock0, api := apiOk, login := Except.ok mbAB2
    insertRes := fun r =>
      if r.subject = "Alpha" then Except.ok () else Except.error "db down" }

def req0 : EmailRequest :=
  { email_address := "me@y.com", password := "pw1"
    sender_addresses := ["a@x.com"] }

/-- Witness for C6: two extracted records, the second insert fails, the
response still reports both found and one stored. -/
theorem c6_store_failures_isolated_witness :
    (extract_emails_from_inbox env0.clock env0.api mbAB2 req0.sender_addresses =
      [recA, recB]) ∧
    ([recA, recB] : List EmailRecord) ≠ [] ∧
    ([recA, recB].countP fun r => exceptOk (env0.insertRes r)) ≤
      ([recA, recB] : List EmailRecord).length :=
  ⟨by decide, by decide,
    (c6_store_failures_isolated env0 req0 mbAB2 [recA, recB] rfl (by decide)
      (by decide)).2⟩

def mbNone : String → Int → List Msg := fun _ _ => []

def env1 : Env :=
  { clock := clock0, api := apiOk, login := Except.ok mbNone
    insertRes := fun _ => Except.ok () }

/-- C7: with zero senders the extraction yields no records, and whenever
extraction yields no records the endpoint returns the no-emails success
shape — a constructor carrying no emails_found field — with the input
sender list echoed, and its insert-attempt trace is empty. -/
theorem c7_no_emails_shape :
    (∀ (clock : Nat → Int) (api : String → Except String String)
       (mb : String → Int → List Msg),
       extract_emails_from_inbox clock api mb [] = []) ∧
    (∀ (env : Env) (req : EmailRequest) (mb : String → Int → List Msg),
      env.login = Except.ok mb →
      extract_emails_from_inbox env.clock env.api mb req.sender_addresses = [] →
      extract_from_email env req =
        (ExtractResponse.noEmails
          "No emails found in the last 24 hours from specified senders"
          req.sender_addresses, [])) := by
  constructor
  · intro clock api mb
    rfl
  · intro env req mb hlogin hx
    unfold extract_from_email
    rw [hlogin]
    simp only [hx]
    rfl

/-- Witness for C7: an empty mailbox produces the no-emails shape with
the senders echoed and no insert attempts. -/
theorem c7_no_emails_shape_witness :
    (extract_emails_from_inbox env1.clock env1.api mbNone req0.sender_addresses = []) ∧
    extract_from_email env1 req0 =
      (ExtractResponse.noEmails
        "No emails found in the last 24 hours from specified senders"
        ["a@x.com"], []) :=
  ⟨rfl, c7_no_emails_shape.2 env1 req0 mbNone rfl rfl⟩

/-- C8: on an empty store the listing endpoint returns exactly the
no-emails message shape (a constructor with no emails field); on a
non-empty store it returns the stored records sorted by date descending
with total_count equal to the length of the returned sequence. -/
theorem c8_emails_endpoint :
    ∀ store : List EmailRecord,
      (store = [] →
        get_emails store = EmailsResponse.empty "No emails found in database") ∧
      (store ≠ [] →
        get_emails store =
          EmailsResponse.listing (List.insertionSort recDateGe store)
            (List.insertionSort recDateGe store).length ∧
        (List.insertionSort recDateGe store).Sorted recDateGe ∧
        (List.insertionSort recDateGe store).Perm store) := by
  intro store
  constructor
  · intro h
    subst h
    rfl
  · intro h
    have hperm := List.perm_insertionSort recDateGe store
    have hnil : List.insertionSort recDateGe store ≠ [] := by
      intro hnilsort
      rw [hnilsort] at hperm
      exact h hperm.symm.eq_nil
    refine ⟨?_, List.sorted_insertionSort recDateGe store, hperm⟩
    unfold get_emails
    rw [if_neg (by simp [List.isEmpty_iff, hnil])]

/-- Witness for C8 at concrete stores: the empty store yields the message
shape; a two-record store out of order comes back sorted descending. -/
theorem c8_emails_endpoint_witness :
    (get_emails [] = EmailsResponse.empty "No emails found in database") ∧
    (([recB, recA] : List EmailRecord) ≠ []) ∧
    get_emails [recB, recA] = EmailsResponse.listing [recA, recB] 2 :=
  ⟨(c8_emails_endpoint []).1 rfl, by decide,
    (((c8_emails_endpoint [recB, recA]).2 (by decide)).1).trans (by decide)⟩

/-- C9: two-run noninterference of the password with respect to logging —
for any environment and any two /extract requests differing only in the
password, the pipeline emits exactly the same sequence of log lines, so
the password never appears in any log output. -/
theorem c9_password_never_logged :
    ∀ (env : Env) (email : String) (senders : List String) (p1 p2 : String),
      extract_from_email_logs env ⟨email, p1, senders⟩ =
        extract_from_email_logs env ⟨email, p2, senders⟩ := by
  intro env email senders p1 p2
  rfl

/-- Everything in a record except its extracted_at stamp (the only field
fed from a later now() call). -/
def stripTime (r : EmailRecord) :
    String × String × String × PyDateTime × String × String :=
  (r.subject, r.from_address, r.to_address, r.date, r.text, r.summary)

theorem processMsgs_stripTime (api : String → Except String String)
    (ds : PyDateTime) (clock clock2 : Nat → Int) :
    ∀ (msgs : List Msg) (k k2 : Nat),
      (processMsgs clock api ds msgs k).1.map stripTime =
        (processMsgs clock2 api ds msgs k2).1.map stripTime := by
  intro msgs
  induction msgs with
  | nil => intro k k2; rfl
  | cons m rest ih =>
    intro k k2
    rw [processMsgs_cons, processMsgs_cons]
    cases hd : m.date with
    | none =>
      rw [processMsg_eq_none clock api ds k m hd,
        processMsg_eq_none clock2 api ds k2 m hd]
      exact ih k k2
    | some d =>
      by_cases hle : ds.instant ≤ (replaceTzinfoUTC d).instant
      · rw [processMsg_eq_keep clock api ds k m d hd hle,
          processMsg_eq_keep clock2 api ds k2 m d hd hle]
        simp only [List.map_cons]
        exact congrArg (List.cons _) (ih (k + 1) (k2 + 1))
      · rw [processMsg_eq_skip clock api ds k m d hd (not_le.mp hle),
          processMsg_eq_skip clock2 api ds k2 m d hd (not_le.mp hle)]
        exact ih k k2

theorem processSenders_stripTime (api : String → Except String String)
    (ds : PyDateTime) (clock clock2 : Nat → Int)
    (mb mb2 : String → Int → List Msg)
    (hmb : ∀ s : String, mb s ds.dateOnly = mb2 s ds.dateOnly) :
    ∀ (senders : List String) (k k2 : Nat),
      (processSenders clock api mb ds senders k).1.map stripTime =
        (processSenders clock2 api mb2 ds senders k2).1.map stripTime := by
  intro senders
  induction senders with
  | nil => intro k k2; rfl
  | cons s rest ih =>
    intro k k2
    rw [processSenders_cons, processSenders_cons]
    simp only [List.map_append]
    rw [hmb s]
    exact congrArg₂ (· ++ ·) (processMsgs_stripTime api ds clock clock2 _ _ _) (ih _ _)

/-- C10: the cutoff is computed exactly once per invocation, from the
first now() call: the server-side search day handed to every fetch and
the per-message filter both derive from that single value, so two runs
whose clocks agree at call 0 (and whose mailboxes agree at the one
searched day) produce the same records up to the extracted_at stamps,
however the later now() calls differ. -/
theorem c10_cutoff_computed_once :
    ∀ (clock clock2 : Nat → Int) (api : String → Except String String)
      (mb mb2 : String → Int → List Msg) (senders : List String),
      clock 0 = clock2 0 →
      (∀ s : String,
        mb s ((clock 0 - 86400).fdiv 86400) = mb2 s ((clock 0 - 86400).fdiv 86400)) →
      (extract_emails_from_inbox clock api mb senders).map stripTime =
        (extract_emails_from_inbox clock2 api mb2 senders).map stripTime := by
  intro clock clock2 api mb mb2 senders h0 hmb
  show ((processSenders clock api mb ⟨clock 0 - 86400, some 0⟩ senders 1).1).map
      stripTime =
    ((processSenders clock2 api mb2 ⟨clock2 0 - 86400, some 0⟩ senders 1).1).map
      stripTime
  rw [← h0]
  exact processSenders_stripTime api ⟨clock 0 - 86400, some 0⟩ clock clock2 mb mb2
    (fun s => hmb s) senders 1 1

def clockAlt : Nat → Int := fun n => if n = 0 then 1000000 else 555

/-- Witness for C10: a clock that drifts after its first reading yields
the same records modulo extracted_at. -/
theorem c10_cutoff_computed_once_witness :
    clock0 0 = clockAlt 0 ∧
    (extract_emails_from_inbox clock0 apiOk mbA ["a@x.com"]).map stripTime =
      (extract_emails_from_inbox clockAlt apiOk mbA ["a@x.com"]).map stripTime :=
  ⟨rfl,
    c10_cutoff_computed_once clock0 clockAlt apiOk mbA mbA ["a@x.com"] rfl
      (fun _ => rfl)⟩

end EmailApp
